import Mathlib

/-!
# Capture lifecycle manager of `main.go`

A shallow embedding of `CaptureManager.StartCapture`, `CaptureManager.StopCapture`,
`findPid` and `handlePod`, together with the parts of the Go standard library they
call (`strings.Index`, `strings.Contains`, `strings.Split`, `strconv.Atoi`,
`strconv.Itoa`, `filepath.Glob`, `os.Remove`).

* Go strings are lists of characters.
* The mutable state the functions act on (the `captures` map, the capture directory, the
  supply of cancellation contexts) is an explicit `World`; every observable step of a
  call (locking, logging, the process lookup, the launch of the supervising goroutine,
  cancellation, globbing, file removal) is recorded in order in `World.trace`.
* What the operating system answers during a call is an argument: the listing of the
  host process root for `findPid`, the listing of the capture directory in the `World`.
* The type `int` is the one of a 64-bit platform.
* `filepath.Glob` is modelled for the patterns `StopCapture` builds from a display name
  without glob metacharacters and path separators (`plainName`); statements about the
  files `StopCapture` removes carry that hypothesis.
-/

namespace PacketCapture

/-- Go `string`, as the list of its characters. -/
abbrev Str := List Char

/-! ## Constants of `main.go` -/

/-- The constant `annotationKey`. -/
def annotationKey : Str := "tcpdump.antrea.io".toList

/-- The constant `captureDir`. -/
def captureDir : Str := "/".toList

/-- The constant `hostProcPath`. -/
def hostProcPath : Str := "/host/proc".toList

/-! ## Standard library: `strings` -/

/-- Go `strings.Index(s, substr)`: the position of the first occurrence of `substr` in
`s`; `none` stands for `-1`. -/
def Index (substr : Str) : Str → Option Nat
  | [] => if substr = [] then some 0 else none
  | c :: cs =>
    if substr.isPrefixOf (c :: cs) then some 0 else (Index substr cs).map (· + 1)

/-- Go `strings.Contains(s, substr)`, which is `Index(s, substr) >= 0`. -/
def Contains (s substr : Str) : Bool := (Index substr s).isSome

/-- The loop of Go `strings.Split` (`genSplit`): cut at the first occurrence of `sep`,
continue behind it.  `fuel` bounds the number of cuts. -/
def splitLoop (sep : Str) : Nat → Str → List Str
  | 0, s => [s]
  | fuel + 1, s =>
    match Index sep s with
    | none => [s]
    | some m => s.take m :: splitLoop sep fuel (s.drop (m + sep.length))

/-- Go `strings.Split(s, sep)` for a non-empty separator.  A string of length `k` holds
at most `k` occurrences of the separator, so `s.length` cuts are always enough. -/
def Split (s sep : Str) : List Str := splitLoop sep s.length s

/-! ## Standard library: `strconv` -/

/-- The constant `strconv.IntSize` of a 64-bit platform. -/
def intSize : Nat := 64

/-- Value of a decimal digit character. -/
def digitVal (c : Char) : Nat := c.toNat - 48

/-- The digit loop of `strconv.ParseUint` in base 10, without the range check: the value
of a non-empty string of decimal digits, `none` (a syntax error) for anything else. -/
def parseDigits (ds : Str) : Option Nat :=
  if ds = [] then none
  else if ds.all Char.isDigit then some (ds.foldl (fun v c => 10 * v + digitVal c) 0)
  else none

/-- Go `strconv.Atoi`: an optional sign `+` or `-`, then at least one decimal digit, and a
value that fits the `int` type; `none` stands for a non-nil error (`ErrSyntax` or
`ErrRange`, which the callers in `main.go` do not tell apart). -/
def Atoi (s : Str) : Option Int :=
  match s with
  | [] => none
  | c :: r =>
    let neg : Bool := c = '-'
    let ds : Str := if c = '+' ∨ c = '-' then r else c :: r
    match parseDigits ds with
    | none => none
    | some un =>
      if neg then
        if un > 2 ^ (intSize - 1) then none else some (-(un : Int))
      else
        if un ≥ 2 ^ (intSize - 1) then none else some (un : Int)

/-- Go `strconv.Itoa`. -/
def Itoa (i : Int) : Str :=
  if i < 0 then '-' :: Nat.toDigits 10 i.natAbs else Nat.toDigits 10 i.toNat

/-! ## Standard library: `path/filepath` and `os` -/

/-- The constant `filepath.Separator` on Unix. -/
def Separator : Char := '/'

/-- A glob metacharacter on Unix: one of `*`, `?`, `[` and the backslash. -/
def isMeta (c : Char) : Bool := c = '*' || c = '?' || c = '[' || c = Char.ofNat 92

/-- Go `filepath.hasMeta`. -/
def hasMeta (path : Str) : Bool := path.any isMeta

/-- A display name that holds neither a glob metacharacter nor a path separator.  Every
Kubernetes object name is one.  The model of `Glob` below is the behaviour of
`filepath.Glob` for such names. -/
def plainName (name : Str) : Prop := hasMeta name = false ∧ name.contains Separator = false

instance (name : Str) : Decidable (plainName name) := by
  unfold plainName; infer_instance

/-- Go `filepath.Match(lit ++ "*", name)` for a literal `lit` without metacharacters: the
literal chunk has to match the start of `name`, and the trailing star matches the
rest unless it holds a separator. -/
def matchLitStar (lit name : Str) : Bool :=
  lit.isPrefixOf name && !(name.drop lit.length).contains Separator

/-- Go `filepath.Glob(dir ++ lit ++ "*")` where `dir` is the capture directory `/` and
`lit` has no metacharacter and no separator: the entries of the directory whose name
matches, each joined with the directory.  `entries` is the directory listing. -/
def Glob (dir lit : Str) (entries : List Str) : List Str :=
  (entries.filter (matchLitStar lit)).map (fun e => dir ++ e)

/-- Go `os.Remove(path)` on the listing of the capture directory, the removal
succeeding: the entry at `path` is gone. -/
def Remove (path : Str) (entries : List Str) : List Str :=
  entries.filter (fun e => decide (captureDir ++ e ≠ path))

/-! ## Data model -/

/-- The field of `corev1.ContainerStatus` that `findPid` reads. -/
structure ContainerStatus where
  ContainerID : Str
  deriving DecidableEq, Repr

/-- The fields of `corev1.Pod` that `main.go` reads. -/
structure Pod where
  UID : Str
  Name : Str
  Namespace : Str
  Annotations : List (Str × Str)
  ContainerStatuses : List ContainerStatus
  deriving DecidableEq, Repr

/-- One entry of `os.ReadDir(hostProcPath)`: its name, whether it is a directory, and
the text of the file `cgroup` below it when `os.ReadFile` can read it. -/
structure DirEntry where
  name : Str
  isDir : Bool
  cgroup : Option Str
  deriving DecidableEq, Repr

/-- The errors `findPid` returns. -/
inductive FindPidError where
  | noContainerStatuses
  | invalidContainerID (containerID : Str)
  | readDir
  | pidNotFound
  deriving DecidableEq, Repr

/-- The messages written with `log.Printf` on the calling goroutine. -/
inductive LogMsg where
  | startingCapture (ns name : Str) (n : Int)
  | errorFindingPid (name : Str) (err : FindPidError)
  | stoppingCapture (name : Str)
  | deletedFile (f : Str)
  | invalidAnnotationValue (name val : Str)
  deriving DecidableEq, Repr

/-- The goroutine `StartCapture` launches: the context it is bound to and the command
line it runs. -/
structure CaptureTask where
  ctx : Nat
  argv : List Str
  deriving DecidableEq, Repr

/-- Observable steps of `StartCapture`, `StopCapture` and `handlePod`. -/
inductive Event where
  | lock
  | unlock
  | log (m : LogMsg)
  | findPid (uid : Str)
  | go (t : CaptureTask)
  | cancel (ctx : Nat)
  | glob (pattern : Str)
  | remove (path : Str)
  deriving DecidableEq, Repr

/-- The state the capture manager acts on: the map `cm.captures` from pod UID to the
cancel function of the capture context (a context is named by its number), the
number of the next context `context.WithCancel` hands out, the listing of the
capture directory, and the steps taken so far. -/
structure World where
  captures : List (Str × Nat)
  nextCtx : Nat
  files : List Str
  trace : List Event
  deriving DecidableEq, Repr

/-- Record a step. -/
def World.emit (w : World) (e : Event) : World := { w with trace := w.trace ++ [e] }

/-- Go map assignment `m[k] = v`. -/
def mapInsert (k : Str) (v : Nat) (m : List (Str × Nat)) : List (Str × Nat) :=
  (k, v) :: m.filter (fun p => decide (p.1 ≠ k))

/-- Go `delete(m, k)`. -/
def mapDelete (k : Str) (m : List (Str × Nat)) : List (Str × Nat) :=
  m.filter (fun p => decide (p.1 ≠ k))

/-- Number of descriptors registered under a key. -/
def descriptorCount (k : Str) (m : List (Str × Nat)) : Nat :=
  (m.filter (fun p => decide (p.1 = k))).length

/-! ## `findPid` -/

/-- The loop of `findPid` over the entries of the host process root. -/
def scanEntries (id : Str) : List DirEntry → Except FindPidError Int
  | [] => .error .pidNotFound
  | entry :: rest =>
    if !entry.isDir then scanEntries id rest
    else
      match Atoi entry.name with
      | none => scanEntries id rest
      | some pid =>
        match entry.cgroup with
        | none => scanEntries id rest
        | some content =>
          if Contains content id then .ok pid else scanEntries id rest

/-- The function `findPid`.  `proc` is the result of `os.ReadDir(hostProcPath)`, `none`
when it fails. -/
def findPid (pod : Pod) (proc : Option (List DirEntry)) : Except FindPidError Int :=
  match pod.ContainerStatuses with
  | [] => .error .noContainerStatuses
  | status :: _ =>
    let containerID := status.ContainerID
    let parts := Split containerID "://".toList
    if parts.length < 2 then .error (.invalidContainerID containerID)
    else
      let id := parts.getD 1 []
      match proc with
      | none => .error .readDir
      | some entries => scanEntries id entries

/-! ## `CaptureManager` -/

/-- The file name `capture-<name>.pcap` of a unit with display name `name`. -/
def artifactName (name : Str) : Str := "capture-".toList ++ name ++ ".pcap".toList

/-- The path `pcapFile` the capture writes to: `captureDir` followed by the file name. -/
def pcapFile (name : Str) : Str := captureDir ++ artifactName name

/-- The command line of the capture subprocess. -/
def captureArgv (pid n : Int) (name : Str) : List Str :=
  ["nsenter".toList, "-t".toList, Itoa pid, "-n".toList, "--".toList,
   "tcpdump".toList, "-Z".toList, "root".toList, "-C".toList, "1".toList,
   "-W".toList, Itoa n, "-w".toList, pcapFile name]

/-- The method `CaptureManager.StartCapture`; its parameter `nodeName` is not used.  `proc` is what `os.ReadDir(hostProcPath)`
returns during the call. -/
def StartCapture (pod : Pod) (n : Int) (_nodeName : Str) (proc : Option (List DirEntry))
    (w : World) : World :=
  let w := w.emit .lock
  let uid := pod.UID
  match w.captures.lookup uid with
  | some _ => w.emit .unlock
  | none =>
    let w := w.emit (.log (.startingCapture pod.Namespace pod.Name n))
    let w := w.emit (.findPid uid)
    match findPid pod proc with
    | .error err => (w.emit (.log (.errorFindingPid pod.Name err))).emit .unlock
    | .ok pid =>
      let ctx := w.nextCtx
      let w := { w with nextCtx := ctx + 1, captures := mapInsert uid ctx w.captures }
      let w := w.emit (.go ⟨ctx, captureArgv pid n pod.Name⟩)
      w.emit .unlock

/-- One turn of the deletion loop of `StopCapture`. -/
def removeFile (w : World) (f : Str) : World :=
  ({ w with files := Remove f w.files }.emit (.remove f)).emit (.log (.deletedFile f))

/-- The method `CaptureManager.StopCapture`.  The pattern is `pcapFile` followed by a
star; the pattern is well formed for a plain display name, so `filepath.Glob` returns
no error there. -/
def StopCapture (pod : Pod) (w : World) : World :=
  let w := w.emit .lock
  let uid := pod.UID
  match w.captures.lookup uid with
  | some cancel =>
    let w := w.emit (.log (.stoppingCapture pod.Name))
    let w := w.emit (.cancel cancel)
    let w := { w with captures := mapDelete uid w.captures }
    let w := w.emit (.glob (pcapFile pod.Name ++ ['*']))
    let files := Glob captureDir (artifactName pod.Name) w.files
    let w := files.foldl removeFile w
    w.emit .unlock
  | none => w.emit .unlock

/-! ## `handlePod` -/

/-- The function `handlePod`. -/
def handlePod (pod : Pod) (nodeName : Str) (proc : Option (List DirEntry)) (w : World) :
    World :=
  match pod.Annotations.lookup annotationKey with
  | none => StopCapture pod w
  | some val =>
    match Atoi val with
    | none => w.emit (.log (.invalidAnnotationValue pod.Name val))
    | some n => StartCapture pod n nodeName proc w


/-! ## Reading a trace -/

/-- The steps a call added to the trace: those of `w2` behind the ones of `w1`. -/
def newEvents (w1 w2 : World) : List Event := w2.trace.drop w1.trace.length

/-- The step launches the supervising goroutine, which spawns the capture subprocess. -/
def Event.isGo : Event → Bool
  | .go _ => true
  | _ => false

/-- The step is a call of `findPid`. -/
def Event.isFindPid : Event → Bool
  | .findPid _ => true
  | _ => false

/-- The step is the process lookup, the launch of the supervising goroutine, the glob or
a file removal. -/
def Event.isIO : Event → Bool
  | .findPid _ => true
  | .go _ => true
  | .glob _ => true
  | .remove _ => true
  | _ => false

/-- The steps of a trace taken while `cm.mu` is not held, the lock operations themselves
left out.  `held` tells whether the lock is held at the start of the trace. -/
def outsideLock : Bool → List Event → List Event
  | _, [] => []
  | _, .lock :: es => outsideLock true es
  | _, .unlock :: es => outsideLock false es
  | held, e :: es => if held then outsideLock held es else e :: outsideLock held es

/-- The steps of a trace taken while `cm.mu` is held, the lock operations themselves left
out. -/
def underLock : Bool → List Event → List Event
  | _, [] => []
  | _, .lock :: es => underLock true es
  | _, .unlock :: es => underLock false es
  | held, e :: es => if held then e :: underLock held es else underLock held es

/-! ## Sample data -/

/-- The unit of the scenario of the specification: `pod-a` with UID `u1`, annotated with
rotation count 3, its first container `containerd://abc`. -/
def podA : Pod :=
  { UID := "u1".toList, Name := "pod-a".toList, Namespace := "default".toList,
    Annotations := [(annotationKey, "3".toList)],
    ContainerStatuses := [⟨"containerd://abc".toList⟩] }

/-- A listing of the host process root: a non-numeric entry, a plain file, a process
that left (no readable cgroup), a process of another container, and the process of
container `abc`. -/
def procA : List DirEntry :=
  [ ⟨"self".toList, true, none⟩,
    ⟨"7".toList, false, some "0::/kubepods/abc".toList⟩,
    ⟨"9".toList, true, none⟩,
    ⟨"1".toList, true, some "0::/init.scope".toList⟩,
    ⟨"42".toList, true, some "0::/kubepods/pod1/abc".toList⟩ ]

/-- A world with an empty registry and an empty capture directory. -/
def worldEmpty : World := { captures := [], nextCtx := 0, files := [], trace := [] }

/-- The steps of the deletion loop of `StopCapture` over the paths the glob returned. -/
def removeSteps : List Str → List Event
  | [] => []
  | f :: fs => .remove f :: .log (.deletedFile f) :: removeSteps fs

/-- The step is a lock operation on `cm.mu`. -/
def Event.isLockOp : Event → Bool
  | .lock => true
  | .unlock => true
  | _ => false

/-- A world in which unit `pod-a` has no descriptor while a rotation file of its capture
lies in the capture directory. -/
def worldLeftover : World :=
  { captures := [], nextCtx := 1, files := ["capture-pod-a.pcap0".toList, "etc".toList],
    trace := [] }

/-- A world in which unit `pod-a` has a descriptor and two rotation files. -/
def worldCapturing : World :=
  { captures := [("u1".toList, 0)], nextCtx := 1,
    files := ["capture-pod-a.pcap0".toList, "capture-pod-a.pcap1".toList, "etc".toList],
    trace := [] }

/-- Unit `web` of namespace `team-a`. -/
def podWebA : Pod :=
  { UID := "uid-a".toList, Name := "web".toList, Namespace := "team-a".toList,
    Annotations := [], ContainerStatuses := [⟨"containerd://aaa".toList⟩] }

/-- Unit `web` of namespace `team-b`: the display name of `podWebA`, another UID. -/
def podWebB : Pod :=
  { UID := "uid-b".toList, Name := "web".toList, Namespace := "team-b".toList,
    Annotations := [], ContainerStatuses := [⟨"containerd://bbb".toList⟩] }

/-- Unit `web.pcap-x`, whose display name extends the one of `podWebA`. -/
def podWebX : Pod :=
  { UID := "uid-x".toList, Name := "web.pcap-x".toList, Namespace := "team-a".toList,
    Annotations := [], ContainerStatuses := [⟨"containerd://ccc".toList⟩] }

/-- Unit `api`. -/
def podApi : Pod :=
  { UID := "uid-c".toList, Name := "api".toList, Namespace := "team-a".toList,
    Annotations := [], ContainerStatuses := [⟨"containerd://ddd".toList⟩] }

/-- A world in which the four units above capture, each with one rotation file. -/
def worldShared : World :=
  { captures := [("uid-a".toList, 0), ("uid-b".toList, 1), ("uid-x".toList, 2),
                 ("uid-c".toList, 3)],
    nextCtx := 4,
    files := ["capture-web.pcap0".toList, "capture-web.pcap-x.pcap0".toList,
              "capture-api.pcap0".toList],
    trace := [] }

/-- The value of a string of decimal digits, as the digit loop of `parseDigits` computes
it. -/
def decimalValue (ds : Str) : Nat := ds.foldl (fun v c => 10 * v + digitVal c) 0

/-- The steps of a trace that cancel a capture context. -/
def Event.isCancel : Event → Bool
  | .cancel _ => true
  | _ => false

/-- Unit `pod-a` annotated with the decimal string of `2 ^ 63`. -/
def podHuge : Pod := { podA with Annotations := [(annotationKey, Nat.toDigits 10 (2 ^ 63))] }

/-- Unit `pod-a` annotated with a value that is no integer. -/
def podMalformed : Pod := { podA with Annotations := [(annotationKey, "abc".toList)] }

/-- Unit `pod-a` annotated with `-1`. -/
def podNegative : Pod := { podA with Annotations := [(annotationKey, "-1".toList)] }

/-- Equality of the results of `findPid` can be decided. -/
instance : DecidableEq (Except FindPidError Int) := fun a b =>
  match a, b with
  | .ok x, .ok y => if h : x = y then isTrue (by rw [h]) else isFalse (fun e => h (by cases e; rfl))
  | .error x, .error y =>
    if h : x = y then isTrue (by rw [h]) else isFalse (fun e => h (by cases e; rfl))
  | .ok _, .error _ => isFalse (fun e => by cases e)
  | .error _, .ok _ => isFalse (fun e => by cases e)

/-- The container identifier `cid` has the form `<runtime>://<opaque-id>` with runtime
`runtime` and opaque id `id`: both parts are non-empty and the separator `://` occurs
once, between them. -/
def wellFormedID (cid runtime id : Str) : Prop :=
  cid = runtime ++ "://".toList ++ id ∧ runtime ≠ [] ∧ id ≠ [] ∧
    ¬ "://".toList <:+: runtime ∧ ¬ "://".toList <:+: id

instance (cid runtime id : Str) : Decidable (wellFormedID cid runtime id) := by
  unfold wellFormedID; infer_instance

/-- An entry of the host process root qualifies for the opaque id `id`: it is a
directory, its name parses as a number, and its cgroup text is readable and holds
`id` as a substring. -/
def qualifies (id : Str) (e : DirEntry) : Bool :=
  e.isDir && (Atoi e.name).isSome &&
    (match e.cgroup with
     | some content => decide (id <:+: content)
     | none => false)

/-- Unit `pod-a` with the container identifier `containerd://`, whose opaque id is
empty. -/
def podEmptyID : Pod := { podA with ContainerStatuses := [⟨"containerd://".toList⟩] }

/-! # Theorems -/

/-! ## The registry -/

theorem lookup_none_of_descriptorCount {k : Str} {m : List (Str × Nat)}
    (h : descriptorCount k m = 0) : m.lookup k = none := by
  induction m with
  | nil => rfl
  | cons p m ih =>
    obtain ⟨a, b⟩ := p
    by_cases hk : a = k
    · subst hk
      simp [descriptorCount] at h
    · have hk2 : (k == a) = false := by
        simp only [beq_eq_false_iff_ne, ne_eq]
        exact fun e => hk e.symm
      have h2 : descriptorCount k m = 0 := by
        simpa [descriptorCount, hk] using h
      simp [List.lookup, hk2, ih h2]

theorem descriptorCount_of_lookup_none {k : Str} {m : List (Str × Nat)}
    (h : m.lookup k = none) : descriptorCount k m = 0 := by
  induction m with
  | nil => rfl
  | cons p m ih =>
    obtain ⟨a, b⟩ := p
    by_cases hk : a = k
    · subst hk
      simp [List.lookup] at h
    · have hk2 : (k == a) = false := by
        simp only [beq_eq_false_iff_ne, ne_eq]
        exact fun e => hk e.symm
      simp only [List.lookup, hk2] at h
      simpa [descriptorCount, hk] using ih h

theorem descriptorCount_mapDelete (k : Str) (m : List (Str × Nat)) :
    descriptorCount k (mapDelete k m) = 0 := by
  simp [descriptorCount, mapDelete, List.filter_filter]

theorem descriptorCount_mapInsert (k : Str) (v : Nat) (m : List (Str × Nat)) :
    descriptorCount k (mapInsert k v m) = 1 := by
  simp [descriptorCount, mapInsert, List.filter_filter]

theorem lookup_mapInsert (k : Str) (v : Nat) (m : List (Str × Nat)) :
    (mapInsert k v m).lookup k = some v := by
  simp [mapInsert, List.lookup]

theorem lookup_mapDelete_of_ne {k j : Str} (h : j ≠ k) (m : List (Str × Nat)) :
    (mapDelete k m).lookup j = m.lookup j := by
  induction m with
  | nil => rfl
  | cons p m ih =>
    obtain ⟨a, b⟩ := p
    by_cases ha : a = k
    · subst ha
      have hj : (j == a) = false := by simpa using h
      simp only [mapDelete, ne_eq, decide_not] at ih
      simp [mapDelete, List.lookup, hj, ih]
    · by_cases hj : j = a
      · subst hj
        simp [mapDelete, List.lookup, ha]
      · have hj2 : (j == a) = false := by simpa using hj
        simp only [mapDelete, ne_eq, decide_not] at ih
        simp [mapDelete, List.lookup, ha, hj2, ih]

/-! ## `StartCapture`, case by case -/

theorem StartCapture_registered (pod : Pod) (n : Int) (node : Str)
    (proc : Option (List DirEntry)) (w : World) {c : Nat}
    (h : w.captures.lookup pod.UID = some c) :
    StartCapture pod n node proc w = { w with trace := w.trace ++ [.lock, .unlock] } := by
  simp [StartCapture, World.emit, h]

theorem StartCapture_failed (pod : Pod) (n : Int) (node : Str)
    (proc : Option (List DirEntry)) (w : World) {err : FindPidError}
    (h : w.captures.lookup pod.UID = none) (hpid : findPid pod proc = .error err) :
    StartCapture pod n node proc w =
      { w with trace := w.trace ++
          [.lock, .log (.startingCapture pod.Namespace pod.Name n), .findPid pod.UID,
           .log (.errorFindingPid pod.Name err), .unlock] } := by
  simp [StartCapture, World.emit, h, hpid]

theorem StartCapture_started (pod : Pod) (n : Int) (node : Str)
    (proc : Option (List DirEntry)) (w : World) {pid : Int}
    (h : w.captures.lookup pod.UID = none) (hpid : findPid pod proc = .ok pid) :
    StartCapture pod n node proc w =
      { captures := mapInsert pod.UID w.nextCtx w.captures
        nextCtx := w.nextCtx + 1
        files := w.files
        trace := w.trace ++
          [.lock, .log (.startingCapture pod.Namespace pod.Name n), .findPid pod.UID,
           .go ⟨w.nextCtx, captureArgv pid n pod.Name⟩, .unlock] } := by
  simp [StartCapture, World.emit, h, hpid]

theorem newEvents_append (w : World) (c : List (Str × Nat)) (k : Nat) (f : List Str)
    (es : List Event) :
    newEvents w { captures := c, nextCtx := k, files := f, trace := w.trace ++ es } = es := by
  simp [newEvents]

/-! ## Idempotent start and failed start -/

/-- C1. Idempotent start: when no descriptor is registered for the unit and the process
lookup succeeds, two calls of `StartCapture` in a row leave exactly one descriptor for
the unit, the registry after the second call is the registry after the first, the two
calls together launch exactly one capture, and the second call adds only the lock and
the unlock step to the trace: no process lookup and no launch.  The second call may see
any listing of the process root. -/
theorem startCapture_idempotent (pod : Pod) (n : Int) (node : Str)
    (proc1 proc2 : Option (List DirEntry)) (w : World) (pid : Int)
    (hreg : descriptorCount pod.UID w.captures = 0)
    (hpid : findPid pod proc1 = .ok pid) :
    (StartCapture pod n node proc2 (StartCapture pod n node proc1 w)).captures
        = (StartCapture pod n node proc1 w).captures ∧
      descriptorCount pod.UID
        (StartCapture pod n node proc2 (StartCapture pod n node proc1 w)).captures = 1 ∧
      (newEvents w (StartCapture pod n node proc2 (StartCapture pod n node proc1 w))).countP
        Event.isGo = 1 ∧
      newEvents (StartCapture pod n node proc1 w)
        (StartCapture pod n node proc2 (StartCapture pod n node proc1 w)) = [.lock, .unlock] ∧
      (newEvents (StartCapture pod n node proc1 w)
        (StartCapture pod n node proc2 (StartCapture pod n node proc1 w))).countP
          Event.isFindPid = 0 ∧
      (newEvents (StartCapture pod n node proc1 w)
        (StartCapture pod n node proc2 (StartCapture pod n node proc1 w))).countP
          Event.isGo = 0 := by
  have h0 := lookup_none_of_descriptorCount hreg
  have h1 := StartCapture_started pod n node proc1 w h0 hpid
  have hl : (StartCapture pod n node proc1 w).captures.lookup pod.UID = some w.nextCtx := by
    rw [h1]; exact lookup_mapInsert _ _ _
  have h2 := StartCapture_registered pod n node proc2 (StartCapture pod n node proc1 w) hl
  rw [h2]
  refine ⟨rfl, ?_, ?_, ?_, ?_, ?_⟩
  · rw [h1]; exact descriptorCount_mapInsert _ _ _
  · rw [h1]; simp [newEvents, Event.isGo]
  · simp [newEvents]
  · simp [newEvents, Event.isFindPid]
  · simp [newEvents, Event.isGo]

/-- C1, witness: unit `pod-a` started twice from the empty world, the second time with an unreadable process root. -/
theorem startCapture_idempotent_witness :
    descriptorCount podA.UID worldEmpty.captures = 0 ∧
      findPid podA (some procA) = .ok 42 ∧
      (StartCapture podA 3 [] none (StartCapture podA 3 [] (some procA) worldEmpty)).captures
        = [("u1".toList, 0)] ∧
      (newEvents worldEmpty
        (StartCapture podA 3 [] none (StartCapture podA 3 [] (some procA) worldEmpty))).countP
          Event.isGo = 1 ∧
      newEvents (StartCapture podA 3 [] (some procA) worldEmpty)
        (StartCapture podA 3 [] none (StartCapture podA 3 [] (some procA) worldEmpty))
          = [.lock, .unlock] := by
  have h := startCapture_idempotent podA 3 [] (some procA) none worldEmpty 42
    (by decide) (by decide)
  exact ⟨by decide, by decide, h.1.trans (by decide), h.2.2.1, h.2.2.2.1⟩

/-- C6. Failed start is atomic: when `findPid` returns an error, `StartCapture` leaves the
registry, the context supply and the capture directory as they were and launches no
capture; and when the unit had no descriptor, so that the lookup was attempted, a
later call of `StartCapture`, whatever the process root then holds, calls `findPid`
again. -/
theorem startCapture_failed_atomic (pod : Pod) (n : Int) (node : Str)
    (proc proc2 : Option (List DirEntry)) (w : World) (err : FindPidError)
    (hpid : findPid pod proc = .error err) :
    (StartCapture pod n node proc w).captures = w.captures ∧
      (StartCapture pod n node proc w).nextCtx = w.nextCtx ∧
      (StartCapture pod n node proc w).files = w.files ∧
      descriptorCount pod.UID (StartCapture pod n node proc w).captures
        = descriptorCount pod.UID w.captures ∧
      (newEvents w (StartCapture pod n node proc w)).countP Event.isGo = 0 ∧
      (descriptorCount pod.UID w.captures = 0 →
        (newEvents w (StartCapture pod n node proc w)).countP Event.isFindPid = 1 ∧
        (newEvents (StartCapture pod n node proc w)
          (StartCapture pod n node proc2 (StartCapture pod n node proc w))).countP
            Event.isFindPid = 1) := by
  cases hl : w.captures.lookup pod.UID with
  | some c =>
    have h1 := StartCapture_registered pod n node proc w hl
    rw [h1]
    refine ⟨rfl, rfl, rfl, rfl, by simp [newEvents, Event.isGo], ?_⟩
    intro h0
    rw [lookup_none_of_descriptorCount h0] at hl
    cases hl
  | none =>
    have h1 := StartCapture_failed pod n node proc w hl hpid
    rw [h1]
    refine ⟨rfl, rfl, rfl, rfl, by simp [newEvents, Event.isGo], ?_⟩
    intro _
    refine ⟨by simp [newEvents, Event.isFindPid], ?_⟩
    cases hp2 : findPid pod proc2 with
    | error e2 =>
      rw [StartCapture_failed pod n node proc2 _ (by exact hl) hp2]
      simp [newEvents, Event.isFindPid]
    | ok pid2 =>
      rw [StartCapture_started pod n node proc2 _ (by exact hl) hp2]
      simp [newEvents, Event.isFindPid]

/-- C6, witness: unit `pod-a` started while the process root is empty, then again when its process is listed. -/
theorem startCapture_failed_atomic_witness :
    findPid podA (some []) = .error .pidNotFound ∧
      descriptorCount podA.UID worldEmpty.captures = 0 ∧
      (StartCapture podA 3 [] (some []) worldEmpty).captures = [] ∧
      (newEvents (StartCapture podA 3 [] (some []) worldEmpty)
          (StartCapture podA 3 [] (some procA)
            (StartCapture podA 3 [] (some []) worldEmpty))).countP Event.isFindPid = 1 := by
  have h := startCapture_failed_atomic podA 3 [] (some []) (some procA) worldEmpty
    .pidNotFound (by decide)
  exact ⟨by decide, by decide, h.1, (h.2.2.2.2.2 (by decide)).2⟩

/-! ## `StopCapture`, case by case -/

theorem foldl_removeFile (paths : List Str) (w : World) :
    paths.foldl removeFile w =
      { captures := w.captures
        nextCtx := w.nextCtx
        files := w.files.filter (fun e => decide (captureDir ++ e ∉ paths))
        trace := w.trace ++ removeSteps paths } := by
  induction paths generalizing w with
  | nil => simp [removeSteps]
  | cons f fs ih =>
    rw [List.foldl_cons, ih]
    simp [removeFile, World.emit, Remove, removeSteps, List.filter_filter, not_or]
    apply List.filter_congr
    intro e _
    exact Bool.and_comm _ _

theorem mem_Glob_iff (lit : Str) (entries : List Str) (e : Str) :
    captureDir ++ e ∈ Glob captureDir lit entries ↔ e ∈ entries ∧ matchLitStar lit e = true := by
  simp [Glob]

theorem StopCapture_unregistered (pod : Pod) (w : World)
    (h : w.captures.lookup pod.UID = none) :
    StopCapture pod w = { w with trace := w.trace ++ [.lock, .unlock] } := by
  simp [StopCapture, World.emit, h]

theorem StopCapture_registered (pod : Pod) (w : World) {c : Nat}
    (h : w.captures.lookup pod.UID = some c) :
    StopCapture pod w =
      { captures := mapDelete pod.UID w.captures
        nextCtx := w.nextCtx
        files := w.files.filter (fun e => !matchLitStar (artifactName pod.Name) e)
        trace := w.trace ++
          ([.lock, .log (.stoppingCapture pod.Name), .cancel c,
            .glob (pcapFile pod.Name ++ ['*'])] ++
           removeSteps (Glob captureDir (artifactName pod.Name) w.files) ++ [.unlock]) } := by
  simp only [StopCapture, World.emit, h, foldl_removeFile]
  congr 1
  · apply List.filter_congr
    intro e he
    have := mem_Glob_iff (artifactName pod.Name) w.files e
    by_cases hm : matchLitStar (artifactName pod.Name) e = true
    · simp [hm, this, he]
    · simp [hm, this, he]
  · simp

/-! ## Cleanup on stop and artifact isolation -/

/-- C2, as stated, fails: unit `pod-a` has no descriptor and a rotation file of its
capture lies in the capture directory; after `StopCapture` the file is still there. -/
theorem stopCapture_cleanup_counterexample :
    plainName podA.Name ∧
      ¬ (descriptorCount podA.UID (StopCapture podA worldLeftover).captures = 0 ∧
          ∀ f ∈ (StopCapture podA worldLeftover).files,
            matchLitStar (artifactName podA.Name) f = false) := by
  decide

/-- C2, amended. Cleanup on stop: for a unit with a plain display name, after
`StopCapture` the registry holds no descriptor for the unit; when a descriptor was
registered, the capture directory holds no entry matching `capture-<name>.pcap*`
any more (no entry whose name starts with `capture-<name>.pcap`, entries of a
directory holding no separator), and the entries that do not match are all kept;
when none was registered, registry and capture directory are as they were. -/
theorem stopCapture_cleanup (pod : Pod) (w : World) (_hname : plainName pod.Name) :
    descriptorCount pod.UID (StopCapture pod w).captures = 0 ∧
      (descriptorCount pod.UID w.captures ≠ 0 →
        (∀ f ∈ (StopCapture pod w).files, matchLitStar (artifactName pod.Name) f = false) ∧
        ((∀ e ∈ w.files, e.contains Separator = false) →
          ∀ f ∈ (StopCapture pod w).files, ¬ artifactName pod.Name <+: f) ∧
        (∀ f ∈ w.files, matchLitStar (artifactName pod.Name) f = false →
          f ∈ (StopCapture pod w).files)) ∧
      (descriptorCount pod.UID w.captures = 0 →
        (StopCapture pod w).captures = w.captures ∧ (StopCapture pod w).files = w.files) := by
  cases hl : w.captures.lookup pod.UID with
  | none =>
    have h0 := descriptorCount_of_lookup_none hl
    rw [StopCapture_unregistered pod w hl]
    exact ⟨h0, fun h => absurd h0 h, fun _ => ⟨rfl, rfl⟩⟩
  | some c =>
    rw [StopCapture_registered pod w hl]
    refine ⟨descriptorCount_mapDelete _ _, fun _ => ⟨?_, ?_, ?_⟩, ?_⟩
    · intro f hf
      simpa using (List.mem_filter.mp hf).2
    · intro hsep f hf hpre
      have hmem := (List.mem_filter.mp hf).1
      have hno : matchLitStar (artifactName pod.Name) f = false := by
        simpa using (List.mem_filter.mp hf).2
      have h1 : (artifactName pod.Name).isPrefixOf f = true :=
        List.isPrefixOf_iff_prefix.mpr hpre
      have h2 : (f.drop (artifactName pod.Name).length).contains Separator = false := by
        have hf2 := hsep f hmem
        cases hc : (f.drop (artifactName pod.Name).length).contains Separator with
        | false => rfl
        | true =>
          have : Separator ∈ f := by
            have hin : Separator ∈ f.drop (artifactName pod.Name).length := by
              simpa using hc
            exact List.mem_of_mem_drop hin
          have : f.contains Separator = true := by simpa using this
          rw [hf2] at this
          cases this
      rw [matchLitStar, h1, h2] at hno
      cases hno
    · intro f hf hm
      exact List.mem_filter.mpr ⟨hf, by simp [hm]⟩
    · intro h0
      rw [lookup_none_of_descriptorCount h0] at hl
      cases hl

/-- C2, witness: unit `pod-a` stopped while it captures with two rotation files. -/
theorem stopCapture_cleanup_witness :
    plainName podA.Name ∧
      descriptorCount podA.UID worldCapturing.captures ≠ 0 ∧
      descriptorCount podA.UID (StopCapture podA worldCapturing).captures = 0 ∧
      (∀ f ∈ (StopCapture podA worldCapturing).files,
        matchLitStar (artifactName podA.Name) f = false) ∧
      (StopCapture podA worldCapturing).files = ["etc".toList] := by
  have h := stopCapture_cleanup podA worldCapturing (by decide)
  exact ⟨by decide, by decide, h.1, (h.2.1 (by decide)).1, by decide⟩

/-- C10, as stated, fails: `podWebA` and `podWebB` have distinct UIDs, the same display
name `web` and both capture; `StopCapture` of the first deletes `capture-web.pcap0`,
which lies at the artifact path of the second.  Likewise `podWebX`, named
`web.pcap-x`, loses `capture-web.pcap-x.pcap0`. -/
theorem stopCapture_isolation_counterexample :
    (podWebA.UID ≠ podWebB.UID ∧
      descriptorCount podWebA.UID worldShared.captures = 1 ∧
      descriptorCount podWebB.UID worldShared.captures = 1 ∧
      artifactName podWebB.Name ++ "0".toList ∈ worldShared.files ∧
      artifactName podWebB.Name ++ "0".toList ∉ (StopCapture podWebA worldShared).files) ∧
    (podWebA.UID ≠ podWebX.UID ∧
      descriptorCount podWebX.UID worldShared.captures = 1 ∧
      artifactName podWebX.Name ++ "0".toList ∈ worldShared.files ∧
      artifactName podWebX.Name ++ "0".toList ∉ (StopCapture podWebA worldShared).files) := by
  decide

/-- C10, amended. `StopCapture` of a capturing unit `U` with a plain display name deletes
exactly the entries of the capture directory that match `capture-<U.name>.pcap*`,
whichever capture wrote them, and leaves the descriptor of every unit `V` with another
UID registered.  A file at the artifact path of `V` followed by a rotation suffix is
kept whenever `capture-<U.name>.pcap` is not a prefix of its name, which is so for every
suffix when neither of the two artifact names is a prefix of the other. -/
theorem stopCapture_isolation (U V : Pod) (w : World) (c : Nat)
    (_hU : plainName U.Name) (huid : U.UID ≠ V.UID)
    (hreg : w.captures.lookup U.UID = some c) :
    (StopCapture U w).captures.lookup V.UID = w.captures.lookup V.UID ∧
      (∀ f, f ∈ (StopCapture U w).files ↔
        f ∈ w.files ∧ matchLitStar (artifactName U.Name) f = false) ∧
      (∀ s, ¬ artifactName U.Name <+: artifactName V.Name ++ s →
        artifactName V.Name ++ s ∈ w.files →
        artifactName V.Name ++ s ∈ (StopCapture U w).files) ∧
      (¬ artifactName U.Name <+: artifactName V.Name →
        ¬ artifactName V.Name <+: artifactName U.Name →
        ∀ s, artifactName V.Name ++ s ∈ w.files →
          artifactName V.Name ++ s ∈ (StopCapture U w).files) := by
  rw [StopCapture_registered U w hreg]
  have hkeep : ∀ f, ¬ artifactName U.Name <+: f → f ∈ w.files →
      f ∈ w.files.filter (fun e => !matchLitStar (artifactName U.Name) e) := by
    intro f hnp hf
    refine List.mem_filter.mpr ⟨hf, ?_⟩
    have : (artifactName U.Name).isPrefixOf f = false := by
      cases hb : (artifactName U.Name).isPrefixOf f with
      | false => rfl
      | true => exact absurd (List.isPrefixOf_iff_prefix.mp hb) hnp
    simp [matchLitStar, this]
  refine ⟨lookup_mapDelete_of_ne (fun e => huid e.symm) _, ?_, ?_, ?_⟩
  · intro f
    simp [List.mem_filter]
  · intro s hnp hf
    exact hkeep _ hnp hf
  · intro h1 h2 s hf
    refine hkeep _ ?_ hf
    intro hp
    have hv : artifactName V.Name <+: artifactName V.Name ++ s := List.prefix_append _ _
    rcases ( List.prefix_or_prefix_of_prefix hp hv) with h | h
    · exact h1 h
    · exact h2 h

/-- C10, witness: unit `web` stopped while unit `api` captures; the file and the descriptor of `api` stay. -/
theorem stopCapture_isolation_witness :
    plainName podWebA.Name ∧ podWebA.UID ≠ podApi.UID ∧
      worldShared.captures.lookup podWebA.UID = some 0 ∧
      ¬ artifactName podWebA.Name <+: artifactName podApi.Name ∧
      ¬ artifactName podApi.Name <+: artifactName podWebA.Name ∧
      artifactName podApi.Name ++ "0".toList ∈ worldShared.files ∧
      (StopCapture podWebA worldShared).captures.lookup podApi.UID = some 3 ∧
      artifactName podApi.Name ++ "0".toList ∈ (StopCapture podWebA worldShared).files := by
  have h := stopCapture_isolation podWebA podApi worldShared 0 (by decide) (by decide)
    (by decide)
  exact ⟨by decide, by decide, by decide, by decide, by decide, by decide,
    h.1.trans (by decide), h.2.2.2 (by decide) (by decide) _ (by decide)⟩

/-! ## The scope of the registry lock -/

theorem outsideLock_held_body (body : List Event)
    (h : ∀ e ∈ body, e.isLockOp = false) :
    outsideLock true (body ++ [.unlock]) = [] ∧
      underLock true (body ++ [.unlock]) = body := by
  induction body with
  | nil => simp [outsideLock, underLock]
  | cons e es ih =>
    have hes := ih (fun x hx => h x (List.mem_cons_of_mem _ hx))
    have he := h e (List.mem_cons_self _ _)
    cases e <;> simp_all [outsideLock, underLock, Event.isLockOp]

theorem removeSteps_not_lockOp (paths : List Str) :
    ∀ e ∈ removeSteps paths, e.isLockOp = false := by
  induction paths with
  | nil => simp [removeSteps]
  | cons f fs ih =>
    intro e he
    simp only [removeSteps, List.mem_cons] at he
    rcases he with rfl | rfl | he
    · rfl
    · rfl
    · exact ih e he

/-- C9, as stated, fails: in the call `StartCapture` of `pod-a` the process lookup and the
launch of the supervising goroutine are steps taken while `cm.mu` is held, and in the
call `StopCapture` so are the glob and the file removals. -/
theorem lock_scope_counterexample :
    (underLock false (newEvents worldEmpty
        (StartCapture podA 3 [] (some procA) worldEmpty))).countP Event.isIO = 2 ∧
      (outsideLock false (newEvents worldEmpty
        (StartCapture podA 3 [] (some procA) worldEmpty))).countP Event.isIO = 0 ∧
      (underLock false (newEvents worldCapturing
        (StopCapture podA worldCapturing))).countP Event.isIO = 3 ∧
      (outsideLock false (newEvents worldCapturing
        (StopCapture podA worldCapturing))).countP Event.isIO = 0 := by
  decide

/-- C9, amended. In every execution of `StartCapture` and of `StopCapture` the first step
takes `cm.mu` and the last step releases it (the deferred unlock); there is no lock
operation in between, so every other step of the call (the registry lookup, insert and
delete, and also the process lookup `findPid`, the launch of the supervising goroutine,
the glob and the file removals) is taken while the lock is held and none while it is
not. -/
theorem lock_scope (pod : Pod) (n : Int) (node : Str) (proc : Option (List DirEntry))
    (w : World) :
    (∃ body, newEvents w (StartCapture pod n node proc w) = .lock :: (body ++ [.unlock]) ∧
        (∀ e ∈ body, e.isLockOp = false) ∧
        outsideLock false (newEvents w (StartCapture pod n node proc w)) = [] ∧
        underLock false (newEvents w (StartCapture pod n node proc w)) = body) ∧
      (∃ body, newEvents w (StopCapture pod w) = .lock :: (body ++ [.unlock]) ∧
        (∀ e ∈ body, e.isLockOp = false) ∧
        outsideLock false (newEvents w (StopCapture pod w)) = [] ∧
        underLock false (newEvents w (StopCapture pod w)) = body) := by
  have key : ∀ (w2 : World) (body : List Event),
      newEvents w w2 = .lock :: (body ++ [.unlock]) → (∀ e ∈ body, e.isLockOp = false) →
      ∃ body, newEvents w w2 = .lock :: (body ++ [.unlock]) ∧
        (∀ e ∈ body, e.isLockOp = false) ∧
        outsideLock false (newEvents w w2) = [] ∧ underLock false (newEvents w w2) = body := by
    intro w2 body h1 h2
    refine ⟨body, h1, h2, ?_, ?_⟩
    · rw [h1]; exact (outsideLock_held_body body h2).1
    · rw [h1]; exact (outsideLock_held_body body h2).2
  constructor
  · cases hl : w.captures.lookup pod.UID with
    | some c =>
      apply key _ []
      · rw [StartCapture_registered pod n node proc w hl]; simp [newEvents]
      · simp
    | none =>
      cases hp : findPid pod proc with
      | error err =>
        apply key _ [.log (.startingCapture pod.Namespace pod.Name n), .findPid pod.UID,
          .log (.errorFindingPid pod.Name err)]
        · rw [StartCapture_failed pod n node proc w hl hp]; simp [newEvents]
        · simp [Event.isLockOp]
      | ok pid =>
        apply key _ [.log (.startingCapture pod.Namespace pod.Name n), .findPid pod.UID,
          .go ⟨w.nextCtx, captureArgv pid n pod.Name⟩]
        · rw [StartCapture_started pod n node proc w hl hp]; simp [newEvents]
        · simp [Event.isLockOp]
  · cases hl : w.captures.lookup pod.UID with
    | none =>
      apply key _ []
      · rw [StopCapture_unregistered pod w hl]; simp [newEvents]
      · simp
    | some c =>
      apply key _ ([.log (.stoppingCapture pod.Name), .cancel c,
          .glob (pcapFile pod.Name ++ ['*'])] ++
          removeSteps (Glob captureDir (artifactName pod.Name) w.files))
      · rw [StopCapture_registered pod w hl]; simp [newEvents]
      · intro e he
        rcases List.mem_append.mp he with h | h
        · simp only [List.mem_cons, List.mem_singleton, List.not_mem_nil, or_false] at h
          rcases h with rfl | rfl | rfl <;> rfl
        · exact removeSteps_not_lockOp _ e h

/-! ## `strconv.Atoi` -/

theorem digitChar_facts : ∀ m, m < 10 →
    (Nat.digitChar m).isDigit = true ∧ digitVal (Nat.digitChar m) = m := by
  decide

theorem isDigit_not_sign {c : Char} (h : c.isDigit = true) : c ≠ '+' ∧ c ≠ '-' := by
  constructor
  · rintro rfl; revert h; decide
  · rintro rfl; revert h; decide

theorem toDigitsCore_spec (fuel : Nat) : ∀ (n : Nat) (acc : Str), n < fuel →
    ∃ ds : Str, Nat.toDigitsCore 10 fuel n acc = ds ++ acc ∧ ds ≠ [] ∧
      ds.all Char.isDigit = true ∧ decimalValue ds = n := by
  induction fuel with
  | zero => intro n acc h; omega
  | succ fuel ih =>
    intro n acc h
    have hd := digitChar_facts (n % 10) (Nat.mod_lt _ (by norm_num))
    by_cases h0 : n / 10 = 0
    · refine ⟨[Nat.digitChar (n % 10)], ?_, by simp, ?_, ?_⟩
      · simp [Nat.toDigitsCore, h0]
      · simp [hd.1]
      · simp only [decimalValue, List.foldl_cons, List.foldl_nil, hd.2]
        omega
    · have hlt : n / 10 < fuel := by omega
      obtain ⟨ds, h1, _, h3, h4⟩ := ih (n / 10) (Nat.digitChar (n % 10) :: acc) hlt
      refine ⟨ds ++ [Nat.digitChar (n % 10)], ?_, by simp, ?_, ?_⟩
      · simp [Nat.toDigitsCore, h0, h1]
      · simp [List.all_append, h3, hd.1]
      · simp only [decimalValue] at h4
        simp only [decimalValue, List.foldl_append, List.foldl_cons, List.foldl_nil, h4, hd.2]
        omega

theorem toDigits_spec (n : Nat) :
    Nat.toDigits 10 n ≠ [] ∧ (Nat.toDigits 10 n).all Char.isDigit = true ∧
      decimalValue (Nat.toDigits 10 n) = n := by
  obtain ⟨ds, h1, h2, h3, h4⟩ := toDigitsCore_spec (n + 1) n [] (Nat.lt_succ_self n)
  have : Nat.toDigits 10 n = ds := by simp [Nat.toDigits, h1]
  rw [this]
  exact ⟨h2, h3, h4⟩

theorem Atoi_of_digits {ds : Str} (hne : ds ≠ []) (hd : ds.all Char.isDigit = true) :
    Atoi ds = if decimalValue ds ≥ 2 ^ (intSize - 1) then none
      else some (decimalValue ds : Int) := by
  cases ds with
  | nil => exact absurd rfl hne
  | cons c r =>
    have hc : c.isDigit = true := by
      simp only [List.all_cons, Bool.and_eq_true] at hd
      exact hd.1
    obtain ⟨hp, hm⟩ := isDigit_not_sign hc
    have hpd : parseDigits (c :: r) = some (decimalValue (c :: r)) := by
      simp only [parseDigits, hd, decimalValue]
      simp
    simp only [Atoi, hp, hm, or_self, if_false, hpd, decide_False]
    simp

theorem Atoi_toDigits (K : Nat) (h : K < 2 ^ 63) :
    Atoi (Nat.toDigits 10 K) = some (K : Int) := by
  obtain ⟨h1, h2, h3⟩ := toDigits_spec K
  rw [Atoi_of_digits h1 h2, h3]
  have : ¬ K ≥ 2 ^ (intSize - 1) := by
    simp only [intSize]
    omega
  simp [this]

theorem parseDigits_inv {ds : Str} {un : Nat} (h : parseDigits ds = some un) :
    ds ≠ [] ∧ ds.all Char.isDigit = true ∧ decimalValue ds = un := by
  unfold parseDigits at h
  by_cases hne : ds = []
  · simp [hne] at h
  · by_cases hall : ds.all Char.isDigit = true
    · rw [if_neg hne, if_pos hall] at h
      exact ⟨hne, hall, Option.some.inj h⟩
    · rw [if_neg hne, if_neg hall] at h
      cases h

theorem Atoi_inv {s : Str} {n : Int} (h : Atoi s = some n) :
    -(2 : Int) ^ 63 ≤ n ∧ n < (2 : Int) ^ 63 ∧
      ∃ ds : Str, ds ≠ [] ∧ ds.all Char.isDigit = true ∧
        (((s = ds ∨ s = '+' :: ds) ∧ n = (decimalValue ds : Int)) ∨
          (s = '-' :: ds ∧ n = -(decimalValue ds : Int))) := by
  cases s with
  | nil => simp [Atoi] at h
  | cons c r =>
    simp only [Atoi] at h
    cases hp : parseDigits (if c = '+' ∨ c = '-' then r else c :: r) with
    | none => rw [hp] at h; simp at h
    | some un =>
      rw [hp] at h
      simp only at h
      have hds := parseDigits_inv hp
      obtain ⟨hne, hall, hval⟩ := hds
      have hpow : (2 : Nat) ^ (intSize - 1) = 2 ^ 63 := by simp [intSize]
      rw [hpow] at h
      by_cases hneg : c = '-'
      · subst hneg
        simp only [decide_True, if_true] at h
        split at h
        · cases h
        · rename_i hle
          have hn : n = -(un : Int) := by simpa using h.symm
          simp only [or_true, if_true] at hne hall hval
          refine ⟨?_, ?_, r, hne, hall, Or.inr ⟨rfl, ?_⟩⟩
          · rw [hn]; have : (un : Int) ≤ 2 ^ 63 := by exact_mod_cast (Nat.le_of_not_gt hle)
            omega
          · rw [hn]; have : (0 : Int) ≤ un := Int.ofNat_nonneg _
            have h2 : (0 : Int) < 2 ^ 63 := by norm_num
            omega
          · rw [hn, hval]
      · have hdec : decide (c = '-') = false := by simp [hneg]
        simp only [hdec] at h
        simp only [Bool.false_eq_true, if_false] at h
        split at h
        · cases h
        · rename_i hlt
          have hn : n = (un : Int) := by simpa using h.symm
          have hlt2 : (un : Int) < 2 ^ 63 := by exact_mod_cast (Nat.lt_of_not_ge hlt)
          have h0 : (0 : Int) ≤ un := Int.ofNat_nonneg _
          have h2 : (0 : Int) < 2 ^ 63 := by norm_num
          by_cases hplus : c = '+'
          · subst hplus
            simp only [true_or, if_true] at hne hall hval
            exact ⟨by rw [hn]; omega, by rw [hn]; exact hlt2, r, hne, hall,
              Or.inl ⟨Or.inr rfl, by rw [hn, hval]⟩⟩
          · simp only [hplus, hneg, or_self, if_false] at hne hall hval
            exact ⟨by rw [hn]; omega, by rw [hn]; exact hlt2, c :: r, hne, hall,
              Or.inl ⟨Or.inl rfl, by rw [hn, hval]⟩⟩

/-! ## `handlePod` -/

/-- C3, as stated, fails: the decimal string of `2 ^ 63` does not fit the type `int`,
`strconv.Atoi` returns an error for it, and `handlePod` logs the value as invalid
instead of calling `StartCapture`. -/
theorem handlePod_roundtrip_counterexample :
    podHuge.Annotations.lookup annotationKey = some (Nat.toDigits 10 (2 ^ 63)) ∧
      Atoi (Nat.toDigits 10 (2 ^ 63)) = none ∧
      handlePod podHuge [] (some procA) worldEmpty =
        worldEmpty.emit (.log (.invalidAnnotationValue podHuge.Name
          "9223372036854775808".toList)) ∧
      handlePod podHuge [] (some procA) worldEmpty ≠
        StartCapture podHuge (2 ^ 63) [] (some procA) worldEmpty := by
  decide

/-- C3, amended. Round-trip annotation parsing: for every `K` below `2 ^ 63`, a unit whose
annotation `tcpdump.antrea.io` holds the base-10 string of `K` makes `strconv.Atoi`
return `K` without error and `handlePod` call `StartCapture` with `n = K`. -/
theorem handlePod_roundtrip (K : Nat) (pod : Pod) (node : Str)
    (proc : Option (List DirEntry)) (w : World) (hK : K < 2 ^ 63)
    (hann : pod.Annotations.lookup annotationKey = some (Nat.toDigits 10 K)) :
    Atoi (Nat.toDigits 10 K) = some (K : Int) ∧
      handlePod pod node proc w = StartCapture pod (K : Int) node proc w := by
  have h := Atoi_toDigits K hK
  refine ⟨h, ?_⟩
  simp only [handlePod, hann, h]

/-- C3, witness: unit `pod-a`, annotated with `3`. -/
theorem handlePod_roundtrip_witness :
    3 < 2 ^ 63 ∧
      podA.Annotations.lookup annotationKey = some (Nat.toDigits 10 3) ∧
      Atoi (Nat.toDigits 10 3) = some 3 ∧
      handlePod podA [] (some procA) worldEmpty =
        StartCapture podA 3 [] (some procA) worldEmpty :=
  ⟨by decide, by decide,
    handlePod_roundtrip 3 podA [] (some procA) worldEmpty (by decide) (by decide)⟩

/-- C4, as stated, fails: unit `pod-a` captures and is then observed with the annotation
value `abc`; `handlePod` does not take the `StopCapture` path: the descriptor stays in
the registry, no context is cancelled and the rotation files stay. -/
theorem handlePod_malformed_counterexample :
    podMalformed.Annotations.lookup annotationKey = some "abc".toList ∧
      Atoi "abc".toList = none ∧
      descriptorCount podMalformed.UID worldCapturing.captures = 1 ∧
      descriptorCount podMalformed.UID
        (handlePod podMalformed [] (some procA) worldCapturing).captures = 1 ∧
      (newEvents worldCapturing
        (handlePod podMalformed [] (some procA) worldCapturing)).countP Event.isCancel = 0 ∧
      handlePod podMalformed [] (some procA) worldCapturing ≠
        StopCapture podMalformed worldCapturing := by
  decide

/-- C4, amended. Malformed annotation: for every unit that carries the annotation key
with a value `strconv.Atoi` rejects, `handlePod` only logs the invalid value; it calls
neither `StopCapture` nor `StartCapture`, so the registry, the capture directory and
the context supply are as before, no context is cancelled and nothing is launched. -/
theorem handlePod_malformed (pod : Pod) (node : Str) (proc : Option (List DirEntry))
    (w : World) (val : Str)
    (hann : pod.Annotations.lookup annotationKey = some val)
    (hval : Atoi val = none) :
    handlePod pod node proc w = w.emit (.log (.invalidAnnotationValue pod.Name val)) ∧
      (handlePod pod node proc w).captures = w.captures ∧
      (handlePod pod node proc w).files = w.files ∧
      (handlePod pod node proc w).nextCtx = w.nextCtx ∧
      newEvents w (handlePod pod node proc w) =
        [.log (.invalidAnnotationValue pod.Name val)] := by
  have h : handlePod pod node proc w =
      w.emit (.log (.invalidAnnotationValue pod.Name val)) := by
    simp only [handlePod, hann, hval]
  rw [h]
  refine ⟨rfl, rfl, rfl, rfl, ?_⟩
  simp [newEvents, World.emit]

/-- C4, witness: unit `pod-a` capturing and annotated with `abc`. -/
theorem handlePod_malformed_witness :
    podMalformed.Annotations.lookup annotationKey = some "abc".toList ∧
      Atoi "abc".toList = none ∧
      (handlePod podMalformed [] (some procA) worldCapturing).captures
        = worldCapturing.captures ∧
      (handlePod podMalformed [] (some procA) worldCapturing).files
        = worldCapturing.files := by
  have h := handlePod_malformed podMalformed [] (some procA) worldCapturing "abc".toList
    (by decide) (by decide)
  exact ⟨by decide, by decide, h.2.1, h.2.2.1⟩

/-- C5, as stated, fails: for unit `pod-a` annotated with `-1`, `strconv.Atoi` returns
`-1` without error and `handlePod` calls `StartCapture` with rotation count `-1`: the
call logs the start with rotation `-1`, registers a descriptor and launches the capture
with the arguments `-W -1`. -/
theorem handlePod_negative_counterexample :
    podNegative.Annotations.lookup annotationKey = some "-1".toList ∧
      Atoi "-1".toList = some (-1) ∧
      handlePod podNegative [] (some procA) worldEmpty =
        StartCapture podNegative (-1) [] (some procA) worldEmpty ∧
      Event.log (.startingCapture podNegative.Namespace podNegative.Name (-1)) ∈
        (handlePod podNegative [] (some procA) worldEmpty).trace ∧
      Event.go ⟨0, captureArgv 42 (-1) podNegative.Name⟩ ∈
        (handlePod podNegative [] (some procA) worldEmpty).trace ∧
      descriptorCount podNegative.UID
        (handlePod podNegative [] (some procA) worldEmpty).captures = 1 ∧
      (captureArgv 42 (-1) podNegative.Name).drop 10 =
        ["-W".toList, "-1".toList, "-w".toList, "/capture-pod-a.pcap".toList] := by
  decide

/-- C5, amended. `handlePod` takes exactly one of three paths.  Without the annotation it
is `StopCapture`.  With an annotation value `strconv.Atoi` rejects it only logs.  With
a value `strconv.Atoi` accepts as `n` it is `StartCapture` with rotation count `n`,
and then the value is a base-10 integer string (an optional sign `+` or `-` followed by
one or more decimal digits), `n` is the integer it denotes and `n` fits the type `int`;
`n` may be negative. -/
theorem handlePod_decision (pod : Pod) (node : Str) (proc : Option (List DirEntry))
    (w : World) :
    (pod.Annotations.lookup annotationKey = none →
        handlePod pod node proc w = StopCapture pod w) ∧
      (∀ val, pod.Annotations.lookup annotationKey = some val → Atoi val = none →
        handlePod pod node proc w = w.emit (.log (.invalidAnnotationValue pod.Name val))) ∧
      (∀ val n, pod.Annotations.lookup annotationKey = some val → Atoi val = some n →
        handlePod pod node proc w = StartCapture pod n node proc w ∧
        -(2 : Int) ^ 63 ≤ n ∧ n < (2 : Int) ^ 63 ∧
        ∃ ds : Str, ds ≠ [] ∧ ds.all Char.isDigit = true ∧
          (((val = ds ∨ val = '+' :: ds) ∧ n = (decimalValue ds : Int)) ∨
            (val = '-' :: ds ∧ n = -(decimalValue ds : Int)))) := by
  refine ⟨?_, ?_, ?_⟩
  · intro h
    simp only [handlePod, h]
  · intro val h1 h2
    simp only [handlePod, h1, h2]
  · intro val n h1 h2
    refine ⟨?_, Atoi_inv h2⟩
    simp only [handlePod, h1, h2]

/-- C5, witness: one unit for each of the three paths. -/
theorem handlePod_decision_witness :
    (podWebA.Annotations.lookup annotationKey = none ∧
        handlePod podWebA [] (some procA) worldShared = StopCapture podWebA worldShared) ∧
      (podMalformed.Annotations.lookup annotationKey = some "abc".toList ∧
        Atoi "abc".toList = none ∧
        handlePod podMalformed [] (some procA) worldEmpty =
          worldEmpty.emit (.log (.invalidAnnotationValue podMalformed.Name "abc".toList))) ∧
      (podNegative.Annotations.lookup annotationKey = some "-1".toList ∧
        Atoi "-1".toList = some (-1) ∧
        handlePod podNegative [] (some procA) worldEmpty =
          StartCapture podNegative (-1) [] (some procA) worldEmpty) :=
  ⟨⟨by decide, (handlePod_decision podWebA [] (some procA) worldShared).1 (by decide)⟩,
   ⟨by decide, by decide,
    (handlePod_decision podMalformed [] (some procA) worldEmpty).2.1 "abc".toList
      (by decide) (by decide)⟩,
   ⟨by decide, by decide,
    ((handlePod_decision podNegative [] (some procA) worldEmpty).2.2 "-1".toList (-1)
      (by decide) (by decide)).1⟩⟩

/-! ## `strings.Index`, `strings.Contains`, `strings.Split` -/

theorem Index_isSome_iff (substr : Str) (s : Str) :
    (Index substr s).isSome = true ↔ substr <:+: s := by
  induction s with
  | nil =>
    by_cases h : substr = []
    · simp [Index, h]
    · simp [Index, h]
  | cons c cs ih =>
    by_cases hp : substr.isPrefixOf (c :: cs) = true
    · have : substr <+: c :: cs := List.isPrefixOf_iff_prefix.mp hp
      simp [Index, hp, this.isInfix]
    · have hnp : ¬ substr <+: c :: cs := fun h => hp (List.isPrefixOf_iff_prefix.mpr h)
      simp only [Index, hp, if_false, Bool.false_eq_true, Option.isSome_map']
      rw [ih, List.infix_cons_iff]
      constructor
      · exact Or.inr
      · rintro (h | h)
        · exact absurd h hnp
        · exact h

theorem Contains_iff (s substr : Str) : Contains s substr = true ↔ substr <:+: s :=
  Index_isSome_iff substr s

theorem Index_none_of_not_infix {substr s : Str} (h : ¬ substr <:+: s) :
    Index substr s = none := by
  cases hi : Index substr s with
  | none => rfl
  | some m =>
    have : (Index substr s).isSome = true := by simp [hi]
    exact absurd ((Index_isSome_iff substr s).mp this) h

theorem Index_separator (runtime rest : Str) (h : ¬ "://".toList <:+: runtime) :
    Index "://".toList (runtime ++ "://".toList ++ rest) = some runtime.length := by
  induction runtime with
  | nil => simp [Index, List.isPrefixOf]
  | cons c r ih =>
    have hr : ¬ "://".toList <:+: r := fun hx => h (List.infix_cons hx)
    have hnp : ("://".toList).isPrefixOf (c :: r ++ "://".toList ++ rest) = false := by
      match r, h with
      | [], _ => 
        simp [List.isPrefixOf]
      | [a], _ => 
        simp [List.isPrefixOf]
      | a :: b :: r2, h =>
        cases hb : ("://".toList).isPrefixOf (c :: a :: b :: r2 ++ "://".toList ++ rest) with
        | false => rfl
        | true =>
          exfalso
          apply h
          have h3 : ':' = c ∧ '/' = a ∧ '/' = b := by
            simpa [List.isPrefixOf] using hb
          obtain ⟨rfl, rfl, rfl⟩ := h3
          exact ⟨[], r2, rfl⟩
    simp only [List.cons_append, List.append_assoc] at hnp ih ⊢
    simp only [Index, hnp, ih hr, Bool.false_eq_true, if_false, Option.map_some',
      List.length_cons]

theorem Split_wellFormed {cid runtime id : Str} (h : wellFormedID cid runtime id) :
    Split cid "://".toList = [runtime, id] := by
  obtain ⟨rfl, _, _, hr, hi⟩ := h
  have hlen : (runtime ++ "://".toList ++ id).length = (runtime.length + id.length + 2) + 1 := by
    simp; omega
  rw [Split, hlen, splitLoop, Index_separator runtime id hr]
  have hd : (runtime ++ "://".toList ++ id).drop (runtime.length + "://".toList.length) = id := by
    rw [← List.length_append, List.drop_left]
  have ht : (runtime ++ "://".toList ++ id).take runtime.length = runtime := by
    rw [List.append_assoc, List.take_left]
  simp only [hd, ht]
  cases hf : runtime.length + id.length + 2 with
  | zero => omega
  | succ k => simp only [splitLoop, Index_none_of_not_infix hi]

theorem Split_no_separator {cid : Str} (h : ¬ "://".toList <:+: cid) :
    Split cid "://".toList = [cid] := by
  rw [Split]
  cases cid.length with
  | zero => rfl
  | succ k => simp only [splitLoop, Index_none_of_not_infix h]

/-! ## `findPid` -/

theorem scanEntries_skip (id : Str) (e : DirEntry) (es : List DirEntry)
    (h : qualifies id e = false) : scanEntries id (e :: es) = scanEntries id es := by
  rw [scanEntries]
  cases hd : e.isDir with
  | false => simp
  | true =>
    cases ha : Atoi e.name with
    | none => simp
    | some pid =>
      cases hc : e.cgroup with
      | none => simp
      | some content =>
        have hq : ¬ id <:+: content := by
          simpa [qualifies, hd, ha, hc] using h
        have : Contains content id = false := by
          cases hcc : Contains content id with
          | false => rfl
          | true => exact absurd ((Contains_iff content id).mp hcc) hq
        simp [this]

theorem scanEntries_hit (id : Str) (e : DirEntry) (es : List DirEntry)
    (h : qualifies id e = true) :
    ∃ p, Atoi e.name = some p ∧ scanEntries id (e :: es) = .ok p := by
  rw [scanEntries]
  cases hd : e.isDir with
  | false => simp [qualifies, hd] at h
  | true =>
    cases ha : Atoi e.name with
    | none => simp [qualifies, hd, ha] at h
    | some pid =>
      cases hc : e.cgroup with
      | none => simp [qualifies, hd, ha, hc] at h
      | some content =>
        have hq : id <:+: content := by
          simpa [qualifies, hd, ha, hc] using h
        have : Contains content id = true := (Contains_iff content id).mpr hq
        exact ⟨pid, rfl, by simp [this]⟩

theorem scanEntries_find (id : Str) (entries : List DirEntry) :
    scanEntries id entries =
      match entries.find? (qualifies id) with
      | some e =>
        match Atoi e.name with
        | some p => .ok p
        | none => .error .pidNotFound
      | none => .error .pidNotFound := by
  induction entries with
  | nil => rfl
  | cons e es ih =>
    cases hq : qualifies id e with
    | false => rw [scanEntries_skip id e es hq, ih]; simp [List.find?, hq]
    | true =>
      obtain ⟨p, hp, hs⟩ := scanEntries_hit id e es hq
      rw [hs]; simp [List.find?, hq, hp]

theorem findPid_wellFormed (pod : Pod) (status : ContainerStatus)
    (others : List ContainerStatus) (runtime id : Str) (entries : List DirEntry)
    (hst : pod.ContainerStatuses = status :: others)
    (hwf : wellFormedID status.ContainerID runtime id) :
    findPid pod (some entries) = scanEntries id entries := by
  have hs := Split_wellFormed hwf
  simp only [findPid, hst, hs]
  simp

/-- Where `findPid` is right about malformed identities: without a container status entry,
and with a first container identifier that holds no separator `://`, it fails with an
error, whatever the process root holds. -/
theorem findPid_rejects (pod : Pod) (proc : Option (List DirEntry)) :
    (pod.ContainerStatuses = [] → findPid pod proc = .error .noContainerStatuses) ∧
      (∀ status others, pod.ContainerStatuses = status :: others →
        ¬ "://".toList <:+: status.ContainerID →
        findPid pod proc = .error (.invalidContainerID status.ContainerID)) := by
  constructor
  · intro h; simp [findPid, h]
  · intro status others h hs
    have hsp := Split_no_separator hs
    simp only [findPid, h, hsp]
    simp

/-- C7, the failing input: the first container identifier is `containerd://`, with an
empty opaque id.  `strings.Split` cuts it into two parts, the length check passes, every
readable cgroup text contains the empty id, and `findPid` returns the first numeric
directory with a readable cgroup file, here process 1, instead of an error. -/
theorem findPid_empty_opaque_id :
    Split "containerd://".toList "://".toList = ["containerd".toList, []] ∧
      findPid podEmptyID (some procA) = .ok 1 ∧
      (StartCapture podEmptyID 3 [] (some procA) worldEmpty).captures
        = [("u1".toList, 0)] := by
  decide

/-- C8. Process Locator scan: for a unit whose first container identifier is well formed
with opaque id `id`, and every listing of the host process root, `findPid` returns pid
`p` exactly when the first entry in listing order that qualifies (a directory, with a
name that parses as a number, with a readable cgroup text holding `id` as a substring)
has a name that parses to `p`; an entry that does not qualify is skipped, the result
being the one for the listing without it; and `findPid` fails with "pid not found"
exactly when no entry qualifies, and with no other error. -/
theorem findPid_scan (pod : Pod) (status : ContainerStatus)
    (others : List ContainerStatus) (runtime id : Str) (entries : List DirEntry)
    (hst : pod.ContainerStatuses = status :: others)
    (hwf : wellFormedID status.ContainerID runtime id) :
    (∀ p, findPid pod (some entries) = .ok p ↔
        ∃ e, entries.find? (qualifies id) = some e ∧ Atoi e.name = some p) ∧
      (∀ p, findPid pod (some entries) = .ok p ↔
        ∃ before e after, entries = before ++ e :: after ∧
          (∀ x ∈ before, qualifies id x = false) ∧ qualifies id e = true ∧
          Atoi e.name = some p) ∧
      (∀ e es, qualifies id e = false →
        findPid pod (some (e :: es)) = findPid pod (some es)) ∧
      (findPid pod (some entries) = .error .pidNotFound ↔
        ∀ e ∈ entries, qualifies id e = false) ∧
      ((∃ p, findPid pod (some entries) = .ok p) ∨
        findPid pod (some entries) = .error .pidNotFound) := by
  have hfind : ∀ p, findPid pod (some entries) = .ok p ↔
      ∃ e, entries.find? (qualifies id) = some e ∧ Atoi e.name = some p := by
    intro p
    rw [findPid_wellFormed pod status others runtime id entries hst hwf, scanEntries_find]
    cases hf : entries.find? (qualifies id) with
    | none => simp
    | some e =>
      have hq : qualifies id e = true := List.find?_some hf
      have hsome : (Atoi e.name).isSome = true := by
        simp only [qualifies, Bool.and_eq_true] at hq
        exact hq.1.2
      obtain ⟨q, hq2⟩ := Option.isSome_iff_exists.mp hsome
      simp only [hq2]
      constructor
      · intro h
        exact ⟨e, rfl, by rw [hq2]; exact congrArg some (Except.ok.inj h)⟩
      · rintro ⟨e2, he2, hp⟩
        cases he2
        rw [hq2] at hp
        rw [Option.some.inj hp]
  refine ⟨hfind, ?_, ?_, ?_, ?_⟩
  · intro p
    rw [hfind p]
    constructor
    · rintro ⟨e, he, hp⟩
      obtain ⟨hq, before, after, hsplit, hbefore⟩ := List.find?_eq_some.mp he
      exact ⟨before, e, after, hsplit, fun x hx => by simpa using hbefore x hx, hq, hp⟩
    · rintro ⟨before, e, after, hsplit, hbefore, hq, hp⟩
      refine ⟨e, ?_, hp⟩
      exact List.find?_eq_some.mpr
        ⟨hq, before, after, hsplit, fun x hx => by simp [hbefore x hx]⟩
  · intro e es hq
    rw [findPid_wellFormed pod status others runtime id (e :: es) hst hwf,
      findPid_wellFormed pod status others runtime id es hst hwf]
    exact scanEntries_skip id e es hq
  · rw [findPid_wellFormed pod status others runtime id entries hst hwf, scanEntries_find]
    cases hf : entries.find? (qualifies id) with
    | none =>
      simp only [true_iff]
      intro e he
      have := List.find?_eq_none.mp hf e he
      simpa using this
    | some e =>
      have hq : qualifies id e = true := List.find?_some hf
      have hsome : (Atoi e.name).isSome = true := by
        simp only [qualifies, Bool.and_eq_true] at hq
        exact hq.1.2
      obtain ⟨q, hq2⟩ := Option.isSome_iff_exists.mp hsome
      simp only [hq2]
      constructor
      · intro h; cases h
      · intro h
        have := h e (List.mem_of_find?_eq_some hf)
        rw [hq] at this
        cases this
  · rw [findPid_wellFormed pod status others runtime id entries hst hwf, scanEntries_find]
    cases hf : entries.find? (qualifies id) with
    | none => exact Or.inr rfl
    | some e =>
      cases ha : Atoi e.name with
      | none => exact Or.inr (by simp [ha])
      | some p => exact Or.inl ⟨p, by simp [ha]⟩

/-- C8, witness: unit `pod-a` with container `containerd://abc` against the listing `procA`. -/
theorem findPid_scan_witness :
    podA.ContainerStatuses = [⟨"containerd://abc".toList⟩] ∧
      wellFormedID "containerd://abc".toList "containerd".toList "abc".toList ∧
      findPid podA (some procA) = .ok 42 ∧
      procA.find? (qualifies "abc".toList) = some ⟨"42".toList, true,
        some "0::/kubepods/pod1/abc".toList⟩ := by
  have h := findPid_scan podA ⟨"containerd://abc".toList⟩ [] "containerd".toList
    "abc".toList procA rfl (by decide)
  exact ⟨by decide, by decide,
    (h.1 42).mpr ⟨⟨"42".toList, true, some "0::/kubepods/pod1/abc".toList⟩,
      by decide, by decide⟩, by decide⟩

end PacketCapture
